import Mathlib

/-!
Shallow embedding of `src/bin/__main__.py`, the OneRoof command-line
front-end: the command synthesizer (`generate_nextflow_command`), the run
launcher (`run_nextflow`), the resume launcher (`resume_nextflow`) with its
resume-state store (the `.nfresume` file, modelled as an `Option String`:
`none` when the file does not exist), and the subcommand dispatcher (`main`).

Python strings are Lean `String`s; file-system and process effects are made
explicit: functions return a trace of `Event`s (file writes and process
spawns) together with an optional raised `PyErr` exception.  The exit status
of the spawned child process is an explicit parameter `child` mapping the
token list handed to `subprocess.run` to the child's return code.
-/

namespace Oneroof

/-- The ASCII apostrophe character `'` (code 39). -/
def apos : Char := Char.ofNat 39

/-- The ASCII double-quote character (code 34). -/
def dquote : Char := Char.ofNat 34

/-- The ASCII backslash character (code 92). -/
def bslash : Char := Char.ofNat 92

/-- The ASCII backquote character (code 96). -/
def btick : Char := Char.ofNat 96

/-- Whitespace characters removed by Python's `str.strip()`: the code points
CPython's `Py_UNICODE_ISSPACE` accepts — U+0009 to U+000D, U+001C to U+001F,
space, U+0085, U+00A0, U+1680, U+2000 to U+200A, U+2028, U+2029, U+202F,
U+205F and U+3000. -/
def isPyWS (c : Char) : Bool :=
  (decide (9 ≤ c.toNat) && decide (c.toNat ≤ 13))
    || (decide (28 ≤ c.toNat) && decide (c.toNat ≤ 31))
    || c.toNat == 32 || c.toNat == 133 || c.toNat == 160
    || c.toNat == 0x1680
    || (decide (0x2000 ≤ c.toNat) && decide (c.toNat ≤ 0x200A))
    || c.toNat == 0x2028 || c.toNat == 0x2029
    || c.toNat == 0x202F || c.toNat == 0x205F || c.toNat == 0x3000

/-- Embedding of Python `s.endswith(suf)`: `suf` is a suffix of `s`. -/
def pyEndsWith (s suf : String) : Bool :=
  let l := s.toList
  let p := suf.toList
  l.drop (l.length - p.length) == p

/-- Embedding of Python `str.split(sep)`.  CPython raises
`ValueError: empty separator` when `sep` is the empty string; otherwise it
splits on every occurrence of `sep`, keeping empty fields. -/
def pySplit (s sep : String) : Except String (List String) :=
  if sep = "" then .error "empty separator"
  else .ok (s.splitOn sep)

/-- Universal-newline translation performed by Python's text-mode
`open(..., "r")` with the default `newline=None`: each `"\r\n"` pair and each
lone `"\r"` is translated to `"\n"`. -/
def univNL : List Char → List Char
  | [] => []
  | [c] => [if c = '\r' then '\n' else c]
  | c :: d :: rest =>
    if c = '\r' then
      if d = '\n' then '\n' :: univNL rest
      else '\n' :: univNL (d :: rest)
    else c :: univNL (d :: rest)

/-- The first line of a text-mode file's content as returned by Python
`file.readline()`: after universal-newline translation, everything up to and
including the first newline, or the whole translated string if it has no
newline. -/
def readlineL (l : List Char) : List Char :=
  let u := univNL l
  let t := u.takeWhile (fun c => c != '\n')
  if t.length = u.length then t else t ++ ['\n']

/-- String version of `readlineL`. -/
def readline (s : String) : String := String.mk (readlineL s.toList)

/-- Right strip: remove trailing Python whitespace. -/
def rstripL (l : List Char) : List Char :=
  (l.reverse.dropWhile isPyWS).reverse

/-- Embedding of Python `str.strip()`: remove whitespace from both ends. -/
def pyStripL (l : List Char) : List Char :=
  (rstripL l).dropWhile isPyWS

/-- String version of `pyStripL`. -/
def pyStrip (s : String) : String := String.mk (pyStripL s.toList)

/-- Characters Python's `shlex.quote` considers safe (the complement of its
`_find_unsafe` character class with ASCII semantics): ASCII alphanumerics,
underscore, and the characters at-sign, percent, plus, equals, colon, comma,
dot, slash, hyphen. -/
def safeChar (c : Char) : Bool :=
  (decide ('a' ≤ c) && decide (c ≤ 'z'))
    || (decide ('A' ≤ c) && decide (c ≤ 'Z'))
    || (decide ('0' ≤ c) && decide (c ≤ '9'))
    || c == '_' || c == '@' || c == '%' || c == '+' || c == '='
    || c == ':' || c == ',' || c == '.' || c == '/' || c == '-'

/-- The body transformation of `shlex.quote`: Python
`s.replace("'", "'\"'\"'")`, replacing every apostrophe by the five-character
sequence apostrophe, double quote, apostrophe, double quote, apostrophe. -/
def quoteBody : List Char → List Char
  | [] => []
  | c :: cs =>
    if c == apos then apos :: dquote :: apos :: dquote :: apos :: quoteBody cs
    else c :: quoteBody cs

/-- Embedding of CPython `shlex.quote` at the character-list level: the empty
string becomes two apostrophes; a string of safe characters is returned
unchanged; anything else is wrapped in apostrophes with embedded apostrophes
rewritten by `quoteBody`. -/
def shlexQuoteL (l : List Char) : List Char :=
  if l = [] then [apos, apos]
  else if l.all safeChar then l
  else apos :: (quoteBody l ++ [apos])

/-- Embedding of CPython `shlex.quote`. -/
def shlex_quote (s : String) : String := String.mk (shlexQuoteL s.toList)

/-- Lexer modes of the POSIX shell word unquoter: outside quotes, inside
single quotes, inside double quotes, and the two backslash-escape states. -/
inductive ShMode
  | norm
  | sq
  | dq
  | normEsc
  | dqEsc
deriving DecidableEq, Repr

/-- POSIX shell quote removal for a single word: apostrophes delimit literal
spans, double quotes delimit spans in which backslash escapes only
dollar, backquote, double quote and backslash, and an unquoted backslash
escapes the next character.  Unquoted whitespace (which would split the word)
and unterminated quotes yield `none`. -/
def shUnq : List Char → ShMode → Option (List Char)
  | [], .norm => some []
  | [], _ => none
  | c :: cs, .norm =>
    if c == apos then shUnq cs .sq
    else if c == dquote then shUnq cs .dq
    else if c == bslash then shUnq cs .normEsc
    else if c == ' ' || c == '\t' || c == '\n' then none
    else (shUnq cs .norm).map (fun r => c :: r)
  | c :: cs, .normEsc => (shUnq cs .norm).map (fun r => c :: r)
  | c :: cs, .sq =>
    if c == apos then shUnq cs .norm
    else (shUnq cs .sq).map (fun r => c :: r)
  | c :: cs, .dq =>
    if c == dquote then shUnq cs .norm
    else if c == bslash then shUnq cs .dqEsc
    else (shUnq cs .dq).map (fun r => c :: r)
  | c :: cs, .dqEsc =>
    if c == '$' || c == btick || c == dquote || c == bslash then
      (shUnq cs .dq).map (fun r => c :: r)
    else (shUnq cs .dq).map (fun r => bslash :: c :: r)

/-- POSIX shell unquoting of one word, `none` on ill-formed input. -/
def shellUnquote (s : String) : Option String :=
  (shUnq s.toList .norm).map String.mk

/-- A Python value as it can occur in the parsed `argparse.Namespace`:
`None`, a `bool`, or any other value (`str`, `int`, `float`, list).
`generate_nextflow_command` only distinguishes `None` and `bool` and passes
every other value through `str(value)`, so non-`None` non-`bool` values are
modelled by their `str()` image, carried by `pyStr`. -/
inductive PyVal
  | pyNone
  | pyBool (b : Bool)
  | pyStr (s : String)
deriving DecidableEq, Repr

/-- Python `str()` of a namespace value (`str(None) = "None"` etc.),
as interpolated into f-strings by `main`. -/
def pyValStr : PyVal → String
  | .pyNone => "None"
  | .pyBool true => "True"
  | .pyBool false => "False"
  | .pyStr s => s

/-- The parameter-fragment loop of `generate_nextflow_command`
(lines 288-296): skip `None` values, emit `--name` for a true boolean flag,
nothing for a false one, and `--name <shlex.quote(str(value))>` for any other
value. -/
def genParams : List (String × PyVal) → List String
  | [] => []
  | (arg, v) :: rest =>
    match v with
    | .pyNone => genParams rest
    | .pyBool b => if b then ("--" ++ arg) :: genParams rest else genParams rest
    | .pyStr s => ("--" ++ arg ++ " " ++ shlex_quote s) :: genParams rest

/-- Embedding of `generate_nextflow_command` (lines 263-302): drop the
`subcommands` entry from the namespace dictionary, build the parameter
fragments, join them with spaces, and attach the fixed header
`nextflow run . `. -/
def generate_nextflow_command (args : List (String × PyVal)) : String :=
  let args_dict := args.filter (fun kv => kv.1 != "subcommands")
  let nextflow_params := genParams args_dict
  let params_str := String.intercalate " " nextflow_params
  "nextflow run . " ++ params_str

/-- An observable side effect of the launcher: a write of the `.nfresume`
file (with the full content written, `open("w")` truncating) or the spawn of
a child process with the given argument tokens. -/
inductive Event
  | fileWrite (content : String)
  | spawn (toks : List String)
deriving DecidableEq, Repr

/-- A raised Python exception, as surfaced by this program. -/
inductive PyErr
  | valueError (msg : String)
  | calledProcessError (returncode : Int)
  | assertionError (msg : String)
  | systemExit (msg : String)
deriving DecidableEq, Repr

/-- The content `run_nextflow` writes to `.nfresume` (lines 323-327): the
command itself when it already ends with `-resume`, otherwise the command
with ` -resume` appended. -/
def recordContent (run_command : String) : String :=
  if pyEndsWith run_command "-resume" then run_command
  else run_command ++ " -resume"

/-- The resume-state store's write step (the `with open("w")` block of
`run_nextflow`, lines 323-327) as a function on the file state: the file is
truncated and replaced with `recordContent`, whatever it held before. -/
def record (run_command : String) (_fs : Option String) : Option String :=
  some (recordContent run_command)

/-- The resume-state store's read step (lines 354-360 of `resume_nextflow`):
an `AssertionError` when `.nfresume` does not exist (the file state is
`none`), otherwise the first line of its content, whitespace-stripped. -/
def load (fs : Option String) : Except PyErr String :=
  match fs with
  | none =>
    .error (.assertionError
      "Previous run not detected. Make sure you start with `oneroof run`")
  | some content => .ok (pyStrip (readline content))

/-- Embedding of `run_nextflow` (lines 305-331): write the resume record;
if the command ends with `-resume`, stop; otherwise evaluate
`run_command.split("")` (which in CPython raises
`ValueError: empty separator`) and, were that to succeed, spawn the child
and raise `CalledProcessError` on a non-zero return code (`check=True`). -/
def run_nextflow (run_command : String) (child : List String → Int) :
    List Event × Option PyErr :=
  let written := recordContent run_command
  if pyEndsWith run_command "-resume" then ([.fileWrite written], none)
  else
    match pySplit run_command "" with
    | .error msg => ([.fileWrite written], some (.valueError msg))
    | .ok toks =>
      if child toks = 0 then ([.fileWrite written, .spawn toks], none)
      else ([.fileWrite written, .spawn toks],
        some (.calledProcessError (child toks)))

/-- Embedding of `resume_nextflow` (lines 334-361): load the recorded
command (asserting the file exists), then hand it to `run_nextflow`. -/
def resume_nextflow (fs : Option String) (child : List String → Int) :
    List Event × Option PyErr :=
  match load fs with
  | .error e => ([], some e)
  | .ok run_command => run_nextflow run_command child

/-- Embedding of `main` (lines 364-409): collect the values of the
`subcommands` key of `vars(args)`, assert there is exactly one, and dispatch:
`"run"` synthesizes and launches, `"resume"` resumes, and anything else
(including `None`, when no subcommand was given) exits via
`sys.exit(f"The subcommand {subcommand} is not yet supported but will be soon!")`,
which terminates the process with status 1. -/
def main (args : List (String × PyVal)) (fs : Option String)
    (child : List String → Int) : List Event × Option PyErr :=
  let chosen_subcommand := (args.filter (fun kv => kv.1 == "subcommands")).map Prod.snd
  match chosen_subcommand with
  | [subcommand] =>
    match subcommand with
    | .pyStr "run" => run_nextflow (generate_nextflow_command args) child
    | .pyStr "resume" => resume_nextflow fs child
    | sub =>
      ([], some (.systemExit
        ("The subcommand " ++ pyValStr sub ++ " is not yet supported but will be soon!")))
  | _ =>
    ([], some (.assertionError
      "Invalid state registered in the form of requesting more than one or zero sub"))

/-! ## Helper lemmas about the file-content primitives -/

theorem takeWhile_of_no_newline (l : List Char) (h : ∀ x ∈ l, x ≠ '\n') :
    l.takeWhile (fun c => c != '\n') = l := by
  refine List.takeWhile_eq_self_iff.mpr ?_
  intro x hx
  simpa using h x hx

theorem univNL_cons_ne (c : Char) (rest : List Char) (h : c ≠ '\r') :
    univNL (c :: rest) = c :: univNL rest := by
  cases rest <;> simp [univNL, h]

theorem univNL_of_no_cr (l : List Char) (h : ∀ x ∈ l, x ≠ '\r') :
    univNL l = l := by
  induction l with
  | nil => rfl
  | cons c rest ih =>
    rw [univNL_cons_ne c rest (h c (by simp)),
      ih (fun x hx => h x (by simp [hx]))]

theorem takeWhile_univNL (l : List Char) :
    (univNL l).takeWhile (fun c => c != '\n')
      = l.takeWhile (fun c => c != '\n' && c != '\r') := by
  induction l with
  | nil => rfl
  | cons c rest ih =>
    by_cases hc : c = '\r'
    · subst hc
      have h1 : ∃ tail, univNL ('\r' :: rest) = '\n' :: tail := by
        cases rest with
        | nil => exact ⟨[], by simp [univNL]⟩
        | cons d rest' =>
          by_cases hd : d = '\n'
          · subst hd
            exact ⟨univNL rest', by simp [univNL]⟩
          · exact ⟨univNL (d :: rest'), by simp [univNL, hd]⟩
      obtain ⟨tail, ht⟩ := h1
      rw [ht]
      simp [List.takeWhile_cons]
    · rw [univNL_cons_ne c rest hc]
      by_cases hn : c = '\n'
      · subst hn
        simp [List.takeWhile_cons]
      · simp [List.takeWhile_cons, hn, hc, ih]

theorem readlineL_of_no_crlf (l : List Char)
    (h : ∀ x ∈ l, x ≠ '\n' ∧ x ≠ '\r') : readlineL l = l := by
  unfold readlineL
  dsimp only
  rw [univNL_of_no_cr l (fun x hx => (h x hx).2),
    takeWhile_of_no_newline l (fun x hx => (h x hx).1)]
  simp

theorem dropWhile_of_head_false {p : Char → Bool} (l : List Char)
    (h : ∀ c ∈ l.head?, p c = false) : l.dropWhile p = l := by
  cases l with
  | nil => rfl
  | cons a t =>
    have ha : p a = false := h a (by simp)
    simp [List.dropWhile_cons, ha]

theorem pyStripL_eq_self (l : List Char)
    (hhd : ∀ c ∈ l.head?, isPyWS c = false)
    (hlast : ∀ c ∈ l.getLast?, isPyWS c = false) : pyStripL l = l := by
  unfold pyStripL rstripL
  have h1 : l.reverse.dropWhile isPyWS = l.reverse := by
    refine dropWhile_of_head_false _ ?_
    intro c hc
    rw [List.head?_reverse] at hc
    exact hlast c hc
  rw [h1, List.reverse_reverse]
  exact dropWhile_of_head_false l hhd

theorem pyStripL_append_newline (t : List Char) :
    pyStripL (t ++ ['\n']) = pyStripL t := by
  unfold pyStripL rstripL
  rw [List.reverse_append]
  have : (['\n'] : List Char).reverse ++ t.reverse = '\n' :: t.reverse := rfl
  rw [this]
  have hnl : isPyWS '\n' = true := by decide
  simp [List.dropWhile_cons, hnl]

theorem pyStripL_readlineL (l : List Char) :
    pyStripL (readlineL l)
      = pyStripL (l.takeWhile (fun c => c != '\n' && c != '\r')) := by
  unfold readlineL
  dsimp only
  by_cases h : ((univNL l).takeWhile (fun c => c != '\n')).length
      = (univNL l).length
  · rw [if_pos h, takeWhile_univNL]
  · rw [if_neg h, pyStripL_append_newline, takeWhile_univNL]

/-! ## Claim theorems: the run launcher and the resume-state store -/

/-- Claim C1, code bug.  The specification says the Run Launcher splits a
command not ending in `-resume` into process-invocation tokens and executes
it as a blocking child process; the code instead evaluates
`run_command.split("")`, which in CPython raises `ValueError: empty
separator`, so after the resume record is written no child process is ever
spawned.  This theorem evaluates the embedded code at a concrete failing
input: the trace contains no `spawn` event and the run aborts with the
`ValueError`, whatever exit status the child would have returned. -/
theorem claim_C1_split_empty_separator_bug :
    run_nextflow "nextflow run . --refseq ref.fasta" (fun _ => 0)
      = ([Event.fileWrite "nextflow run . --refseq ref.fasta -resume"],
        some (PyErr.valueError "empty separator")) := by
  decide

/-- Claim C2: a command already ending in the resume indicator is written
unchanged to the resume file and `run_nextflow` returns without spawning a
child (first conjunct); consequently the resume subcommand's path, whose
loaded command carries the resume indicator, only rewrites the file and
spawns nothing (second conjunct); and indeed no execution of
`resume_nextflow` ever produces a `spawn` event (third conjunct). -/
theorem claim_C2_resume_short_circuit (cmd content : String)
    (fsO : Option String) (child : List String → Int) :
    (pyEndsWith cmd "-resume" = true →
      run_nextflow cmd child = ([Event.fileWrite cmd], none))
    ∧ (pyEndsWith (pyStrip (readline content)) "-resume" = true →
      resume_nextflow (some content) child
        = ([Event.fileWrite (pyStrip (readline content))], none))
    ∧ (∀ e ∈ (resume_nextflow fsO child).1, ∀ toks, e ≠ Event.spawn toks) := by
  have hrun : ∀ c : String, pyEndsWith c "-resume" = true →
      run_nextflow c child = ([Event.fileWrite c], none) := by
    intro c hc
    unfold run_nextflow recordContent
    simp [hc]
  refine ⟨hrun cmd, ?_, ?_⟩
  · intro h
    show run_nextflow (pyStrip (readline content)) child = _
    exact hrun _ h
  · intro e he toks
    cases fsO with
    | none => simp [resume_nextflow, load] at he
    | some cont =>
      have he' : e ∈ (run_nextflow (pyStrip (readline cont)) child).1 := he
      cases hc : pyEndsWith (pyStrip (readline cont)) "-resume" with
      | true =>
        rw [hrun _ hc] at he'
        simp at he'
        simp [he']
      | false =>
        rw [show run_nextflow (pyStrip (readline cont)) child
            = ([Event.fileWrite (recordContent (pyStrip (readline cont)))],
              some (PyErr.valueError "empty separator")) from by
          unfold run_nextflow
          simp [hc, pySplit]] at he'
        simp at he'
        simp [he']

/-- Claim C2 witness: each hypothesis discharged at a concrete
already-resumable command. -/
theorem claim_C2_resume_short_circuit_witness :
    run_nextflow "nextflow run . -resume" (fun _ => 0)
      = ([Event.fileWrite "nextflow run . -resume"], none)
    ∧ resume_nextflow (some "nextflow run . -resume") (fun _ => 0)
      = ([Event.fileWrite (pyStrip (readline "nextflow run . -resume"))], none)
    ∧ Event.fileWrite "nextflow run . -resume" ≠ Event.spawn [] :=
  ⟨(claim_C2_resume_short_circuit "nextflow run . -resume" "" none (fun _ => 0)).1
      (by decide),
    (claim_C2_resume_short_circuit "" "nextflow run . -resume" none (fun _ => 0)).2.1
      (by decide),
    (claim_C2_resume_short_circuit "" "" (some "nextflow run . -resume")
        (fun _ => 0)).2.2
      (Event.fileWrite "nextflow run . -resume") (by decide) []⟩

/-- Claim C5: in every execution of `run_nextflow` the very first observable
event is the write of the resume record — so the record is on disk before
any child process is spawned, and it exists even when the subsequent split or
spawn fails, whatever the child's exit status. -/
theorem claim_C5_record_written_before_spawn (run_command : String)
    (child : List String → Int) :
    (run_nextflow run_command child).1.head?
      = some (Event.fileWrite (recordContent run_command)) := by
  unfold run_nextflow
  cases hc : pyEndsWith run_command "-resume" with
  | true => simp [hc]
  | false => simp [hc, pySplit]

/-- Claim C8: the record step is idempotent — writing the record for the same
command twice leaves the file exactly as after a single write — and the
written content does not depend on the prior file state at all (the `"w"`
open mode truncates; nothing is appended or merged). -/
theorem claim_C8_record_idempotent (run_command : String) (fs fs' : Option String) :
    record run_command (record run_command fs) = record run_command fs
    ∧ record run_command fs = record run_command fs' :=
  ⟨rfl, rfl⟩

/-- Claim C3, counterexample.  The claim states that for EVERY command string
`c`, a `load()` immediately after recording `c` returns exactly the stored
string.  It fails when `c` contains a newline: recording `"a\nb"` stores
`"a\nb -resume"`, but `load` reads only the first line and returns `"a"`. -/
theorem claim_C3_counterexample :
    record "a\nb" none = some "a\nb -resume"
    ∧ load (record "a\nb" none) = Except.ok "a"
    ∧ ("a" : String) ≠ "a\nb -resume" :=
  ⟨by decide, rfl, by decide⟩

/-- Claim C3, amended: for every nonempty command string `c` that contains
no line terminator (neither newline nor carriage return, text-mode reading
treating both as line endings) and neither starts nor ends with Python
whitespace, the record step stores `c` with ` -resume` appended when `c` does
not already end in `-resume` and stores `c` unchanged when it does, and a
`load()` performed immediately afterwards returns exactly that stored
string. -/
theorem claim_C3_record_then_load (c : String) (fs : Option String)
    (hne : c.toList ≠ [])
    (hnl : ∀ x ∈ c.toList, x ≠ '\n' ∧ x ≠ '\r')
    (hhd : ∀ x ∈ c.toList.head?, isPyWS x = false)
    (hlast : ∀ x ∈ c.toList.getLast?, isPyWS x = false) :
    record c fs = some (if pyEndsWith c "-resume" then c else c ++ " -resume")
    ∧ load (record c fs)
      = Except.ok (if pyEndsWith c "-resume" then c else c ++ " -resume") := by
  refine ⟨rfl, ?_⟩
  show Except.ok (pyStrip (readline (recordContent c))) = _
  have key : pyStrip (readline (recordContent c)) = recordContent c := by
    unfold pyStrip readline
    rw [show (String.mk (readlineL (recordContent c).toList)).toList
        = readlineL (recordContent c).toList from rfl]
    suffices h : pyStripL (readlineL (recordContent c).toList)
        = (recordContent c).toList by
      rw [h]
      rfl
    cases hc : pyEndsWith c "-resume" with
    | true =>
      have hrc : recordContent c = c := by simp [recordContent, hc]
      rw [hrc, readlineL_of_no_crlf c.toList hnl,
        pyStripL_eq_self c.toList hhd hlast]
    | false =>
      have hrc : recordContent c = c ++ " -resume" := by simp [recordContent, hc]
      have hdata : (c ++ " -resume").toList = c.toList ++ (" -resume").toList :=
        String.data_append c " -resume"
      rw [hrc, hdata]
      have hnl' : ∀ x ∈ c.toList ++ (" -resume").toList, x ≠ '\n' ∧ x ≠ '\r' := by
        intro x hx
        rcases List.mem_append.mp hx with h | h
        · exact hnl x h
        · constructor <;>
            (intro e
             subst e
             revert h
             decide)
      rw [readlineL_of_no_crlf _ hnl']
      have hhd' : ∀ x ∈ (c.toList ++ (" -resume").toList).head?, isPyWS x = false := by
        rw [List.head?_append_of_ne_nil _ hne]
        exact hhd
      have hlast' : ∀ x ∈ (c.toList ++ (" -resume").toList).getLast?,
          isPyWS x = false := by
        rw [List.getLast?_append_of_ne_nil _ (by decide : (" -resume").toList ≠ [])]
        have he : (" -resume").toList.getLast? = some 'e' := by decide
        rw [he]
        intro x hx
        have hx' : 'e' = x := by simpa using hx
        subst hx'
        decide
      exact pyStripL_eq_self _ hhd' hlast'
  rw [key]
  unfold recordContent
  cases hc : pyEndsWith c "-resume" <;> simp [hc]

/-- Claim C3 witness: the amended theorem applied to a concrete synthesized
command, matching the scenario of spec section 8. -/
theorem claim_C3_record_then_load_witness :
    record "nextflow run . --refseq ref.fasta" none
      = some (if pyEndsWith "nextflow run . --refseq ref.fasta" "-resume"
          then "nextflow run . --refseq ref.fasta"
          else "nextflow run . --refseq ref.fasta" ++ " -resume")
    ∧ load (record "nextflow run . --refseq ref.fasta" none)
      = Except.ok (if pyEndsWith "nextflow run . --refseq ref.fasta" "-resume"
          then "nextflow run . --refseq ref.fasta"
          else "nextflow run . --refseq ref.fasta" ++ " -resume") :=
  claim_C3_record_then_load "nextflow run . --refseq ref.fasta" none
    (by decide) (by decide) (by decide) (by decide)

/-- Claim C4: the read step of `resume_nextflow` fails with the
missing-prior-run assertion (whose message instructs the user to start with
`oneroof run`) exactly when the `.nfresume` file does not exist; when the
file exists it returns the first line of its content — the characters before
the first line terminator, newline or carriage return, since text-mode
reading treats both as line endings — with surrounding whitespace
stripped. -/
theorem claim_C4_load_behavior :
    load none = Except.error (PyErr.assertionError
      "Previous run not detected. Make sure you start with `oneroof run`")
    ∧ ∀ content : String, load (some content)
        = Except.ok (pyStrip (String.mk
            (content.toList.takeWhile (fun c => c != '\n' && c != '\r')))) := by
  refine ⟨rfl, ?_⟩
  intro content
  show Except.ok (pyStrip (readline content)) = _
  unfold pyStrip readline
  rw [show (String.mk (readlineL content.toList)).toList
      = readlineL content.toList from rfl]
  rw [show (String.mk
        (content.toList.takeWhile (fun c => c != '\n' && c != '\r'))).toList
      = content.toList.takeWhile (fun c => c != '\n' && c != '\r') from rfl]
  rw [pyStripL_readlineL]

/-- Claim C9: when the selected subcommand is `env` or `validate` (the
`subcommands` entry of the parsed namespace holds that string), `main`
terminates through `sys.exit` with the informational "not yet supported"
message (a non-zero exit status), having produced an empty event trace: no
file write and no process spawn. -/
theorem claim_C9_env_validate_stubs (args : List (String × PyVal))
    (fs : Option String) (child : List String → Int) :
    ((args.filter (fun kv => kv.1 == "subcommands")).map Prod.snd
        = [PyVal.pyStr "env"] →
      main args fs child = ([], some (PyErr.systemExit
        "The subcommand env is not yet supported but will be soon!")))
    ∧ ((args.filter (fun kv => kv.1 == "subcommands")).map Prod.snd
        = [PyVal.pyStr "validate"] →
      main args fs child = ([], some (PyErr.systemExit
        "The subcommand validate is not yet supported but will be soon!"))) := by
  constructor <;> intro h <;> unfold main <;> rw [h] <;> rfl

/-- Claim C9 witness: a namespace whose only entry selects the `env`
subcommand, and one selecting `validate`. -/
theorem claim_C9_env_validate_stubs_witness :
    main [("subcommands", PyVal.pyStr "env")] none (fun _ => 0)
      = ([], some (PyErr.systemExit
        "The subcommand env is not yet supported but will be soon!"))
    ∧ main [("subcommands", PyVal.pyStr "validate")] none (fun _ => 0)
      = ([], some (PyErr.systemExit
        "The subcommand validate is not yet supported but will be soon!")) :=
  ⟨(claim_C9_env_validate_stubs [("subcommands", PyVal.pyStr "env")] none
      (fun _ => 0)).1 (by decide),
    (claim_C9_env_validate_stubs [("subcommands", PyVal.pyStr "validate")] none
      (fun _ => 0)).2 (by decide)⟩

/-- Claim C10: when the program is invoked with zero subcommands, argparse
leaves the `subcommands` field as `None`, so the namespace's single
`subcommands` entry holds `None`; the guarding list comprehension still
yields exactly one element, so main's exactly-one-subcommand assertion
succeeds (no `AssertionError` is raised), and the process exits through the
"not yet supported" branch with the string `None` interpolated into the
message — the exactly-one-of-{env, validate, resume, run} invariant is not
enforced at the public interface. -/
theorem claim_C10_no_subcommand_not_enforced (args : List (String × PyVal))
    (fs : Option String) (child : List String → Int) :
    (args.filter (fun kv => kv.1 == "subcommands")).map Prod.snd
        = [PyVal.pyNone] →
      main args fs child = ([], some (PyErr.systemExit
        "The subcommand None is not yet supported but will be soon!")) := by
  intro h
  unfold main
  rw [h]
  rfl

/-- Claim C10 witness: the namespace argparse produces for an invocation with
zero subcommands, with its `subcommands` field equal to `None`. -/
theorem claim_C10_no_subcommand_not_enforced_witness :
    main [("subcommands", PyVal.pyNone)] none (fun _ => 0)
      = ([], some (PyErr.systemExit
        "The subcommand None is not yet supported but will be soon!")) :=
  claim_C10_no_subcommand_not_enforced [("subcommands", PyVal.pyNone)] none
    (fun _ => 0) (by decide)

/-! ## The shell-quoting round trip -/

theorem shUnq_norm_apos (cs : List Char) : shUnq (apos :: cs) .norm = shUnq cs .sq := by
  simp [shUnq]

theorem shUnq_norm_dq (cs : List Char) : shUnq (dquote :: cs) .norm = shUnq cs .dq := by
  have h : (dquote == apos) = false := by decide
  simp [shUnq, h]

theorem shUnq_sq_apos (cs : List Char) : shUnq (apos :: cs) .sq = shUnq cs .norm := by
  simp [shUnq]

theorem shUnq_sq_ne (c : Char) (cs : List Char) (h : (c == apos) = false) :
    shUnq (c :: cs) .sq = (shUnq cs .sq).map (fun r => c :: r) := by
  simp [shUnq, h]

theorem shUnq_dq_close (cs : List Char) : shUnq (dquote :: cs) .dq = shUnq cs .norm := by
  simp [shUnq]

theorem shUnq_dq_apos (cs : List Char) :
    shUnq (apos :: cs) .dq = (shUnq cs .dq).map (fun r => apos :: r) := by
  have h1 : (apos == dquote) = false := by decide
  have h2 : (apos == bslash) = false := by decide
  simp [shUnq, h1, h2]

theorem safeChar_not_special (c : Char) (h : safeChar c = true) :
    (c == apos) = false ∧ (c == dquote) = false ∧ (c == bslash) = false
    ∧ (c == ' ' || c == '\t' || c == '\n') = false := by
  have hne : ∀ d : Char, safeChar d = false → c ≠ d := by
    intro d hd e
    rw [e, hd] at h
    exact Bool.false_ne_true h
  refine ⟨beq_eq_false_iff_ne.mpr (hne apos (by decide)),
    beq_eq_false_iff_ne.mpr (hne dquote (by decide)),
    beq_eq_false_iff_ne.mpr (hne bslash (by decide)), ?_⟩
  have h1 : c ≠ ' ' := hne ' ' (by decide)
  have h2 : c ≠ '\t' := hne '\t' (by decide)
  have h3 : c ≠ '\n' := hne '\n' (by decide)
  simp [beq_eq_false_iff_ne, h1, h2, h3]

theorem shUnq_all_safe (l : List Char) (h : l.all safeChar = true) :
    shUnq l .norm = some l := by
  induction l with
  | nil => rfl
  | cons c cs ih =>
    rw [List.all_cons, Bool.and_eq_true] at h
    obtain ⟨hns1, hns2, hns3, hns4⟩ := safeChar_not_special c h.1
    simp [shUnq, hns1, hns2, hns3, hns4, ih h.2]

theorem shUnq_quoteBody (l : List Char) :
    shUnq (quoteBody l ++ [apos]) .sq = some l := by
  induction l with
  | nil =>
    show shUnq [apos] .sq = some []
    rw [shUnq_sq_apos]
    rfl
  | cons c cs ih =>
    by_cases hc : c = apos
    · subst hc
      show shUnq (quoteBody (apos :: cs) ++ [apos]) .sq = some (apos :: cs)
      have hqb : quoteBody (apos :: cs) ++ [apos]
          = apos :: dquote :: apos :: dquote :: apos :: (quoteBody cs ++ [apos]) := by
        simp [quoteBody]
      rw [hqb, shUnq_sq_apos, shUnq_norm_dq, shUnq_dq_apos, shUnq_dq_close,
        shUnq_norm_apos, ih]
      rfl
    · have hcb : (c == apos) = false := beq_eq_false_iff_ne.mpr hc
      have hqb : quoteBody (c :: cs) ++ [apos] = c :: (quoteBody cs ++ [apos]) := by
        simp [quoteBody, hcb]
      rw [hqb, shUnq_sq_ne c _ hcb, ih]
      rfl

theorem shUnq_shlexQuoteL (l : List Char) : shUnq (shlexQuoteL l) .norm = some l := by
  by_cases h0 : l = []
  · subst h0
    rfl
  · by_cases hs : l.all safeChar = true
    · unfold shlexQuoteL
      rw [if_neg h0, if_pos hs]
      exact shUnq_all_safe l hs
    · unfold shlexQuoteL
      rw [if_neg h0, if_neg hs, shUnq_norm_apos]
      exact shUnq_quoteBody l

theorem shlex_quote_roundtrip (s : String) :
    shellUnquote (shlex_quote s) = some s := by
  unfold shellUnquote shlex_quote
  rw [show (String.mk (shlexQuoteL s.toList)).toList = shlexQuoteL s.toList from rfl]
  rw [shUnq_shlexQuoteL]
  rfl

/-! ## Claim theorems: the command synthesizer -/

theorem genParams_append (l₁ l₂ : List (String × PyVal)) :
    genParams (l₁ ++ l₂) = genParams l₁ ++ genParams l₂ := by
  induction l₁ with
  | nil => rfl
  | cons kv rest ih =>
    obtain ⟨arg, v⟩ := kv
    cases v with
    | pyNone => simpa [genParams] using ih
    | pyBool b => cases b <;> simp [genParams, ih]
    | pyStr s => simp [genParams, ih]

/-- Claim C6: a boolean-flag option contributes exactly one `--name` fragment
(with no value token following it) to the synthesized parameter list when its
value is true, and contributes nothing when its value is false or when the
option is absent (its argparse value is `None`); the rest of the parameter
list is unaffected either way. -/
theorem claim_C6_boolean_flags (pre post : List (String × PyVal))
    (name : String) (b : Bool) :
    genParams (pre ++ (name, PyVal.pyBool b) :: post)
      = genParams pre ++ (if b then ["--" ++ name] else []) ++ genParams post
    ∧ genParams (pre ++ (name, PyVal.pyNone) :: post)
      = genParams pre ++ genParams post := by
  constructor
  · rw [show pre ++ (name, PyVal.pyBool b) :: post
        = pre ++ ([(name, PyVal.pyBool b)] ++ post) from rfl,
      genParams_append, genParams_append]
    cases b <;> simp [genParams]
  · rw [show pre ++ (name, PyVal.pyNone) :: post
        = pre ++ ([(name, PyVal.pyNone)] ++ post) from rfl,
      genParams_append, genParams_append]
    simp [genParams]

/-- Claim C7: a present non-boolean option with value `v` contributes exactly
the fragment `--name ` followed by the `shlex.quote`d form of `str(v)` (here
`s`, since non-boolean values reach the command line only through `str`), and
POSIX shell unquoting of that quoted token recovers exactly `s`, embedded
whitespace and shell metacharacters included. -/
theorem claim_C7_value_options_roundtrip (pre post : List (String × PyVal))
    (name s : String) :
    genParams (pre ++ (name, PyVal.pyStr s) :: post)
      = genParams pre ++ ("--" ++ name ++ " " ++ shlex_quote s) :: genParams post
    ∧ shellUnquote (shlex_quote s) = some s := by
  constructor
  · rw [show pre ++ (name, PyVal.pyStr s) :: post
        = pre ++ ([(name, PyVal.pyStr s)] ++ post) from rfl,
      genParams_append, genParams_append]
    simp [genParams]
  · exact shlex_quote_roundtrip s

end Oneroof
